import Mathlib

/-!
Shallow embedding of the CanBusBridge component (src/CanBusBridge.cpp,
src/CanBusBridge.h): the loop-suppression router, the tick-driven drain
loop, the virtual-to-hardware transmit callback, and the endpoint binder
of doInit, together with theorems checking the specified properties.
-/

namespace CanBusBridge

instance {ε α : Type} [DecidableEq ε] [DecidableEq α] : DecidableEq (Except ε α)
  | Except.error a, Except.error b => decidable_of_iff (a = b) (by simp)
  | Except.error _, Except.ok _ => isFalse (by simp)
  | Except.ok _, Except.error _ => isFalse (by simp)
  | Except.ok a, Except.ok b => decidable_of_iff (a = b) (by simp)

/-- A CAN frame: an identifier plus an opaque payload byte sequence
(CanFrame with field ident_ in the source; payload bytes are uint8
values, modelled as naturals). -/
structure CanFrame where
  ident : ℕ
  payload : List ℕ
deriving DecidableEq

/-- The mutable router state of the bridge: the two suppression sets
to_be_input_to_ecu_can_id_set_ (identifiers most recently forwarded
virtual to hardware, the Pending-From-Virtual Set) and
received_from_ecu_can_id_set_ (identifiers most recently forwarded
hardware to virtual, the Pending-From-Hardware Set), both
std::unordered_set of uint32 in CanBusBridge.h lines 49-51. -/
structure BridgeState where
  to_be_input_to_ecu_can_id_set : Finset ℕ
  received_from_ecu_can_id_set : Finset ℕ
deriving DecidableEq

/-- The state right after construction and doInit: both sets are
default-constructed empty and doInit never touches them. -/
def initState : BridgeState := ⟨∅, ∅⟩

/-- One iteration of the drain-loop body in doUpdate
(CanBusBridge.cpp lines 123-127): read one frame; if its identifier is
in to_be_input_to_ecu_can_id_set_ do nothing, otherwise add it to
received_from_ecu_can_id_set_ and send the frame to the virtual bus.
Returns the new state and the frame the iteration forwarded, if any. -/
def drainStep (s : BridgeState) (f : CanFrame) : BridgeState × Option CanFrame :=
  if f.ident ∈ s.to_be_input_to_ecu_can_id_set then
    (s, none)
  else
    ({ s with received_from_ecu_can_id_set :=
        insert f.ident s.received_from_ecu_can_id_set }, some f)

/-- The drain loop of doUpdate run over the whole queue of frames that
the hardware bus holds at the start of the tick, in order; returns the
final state and the list of frames forwarded to the virtual bus. -/
def drain (s : BridgeState) : List CanFrame → BridgeState × List CanFrame
  | [] => (s, [])
  | f :: rest =>
    let p := drainStep s f
    let q := drain p.1 rest
    (q.1, p.2.toList ++ q.2)

/-- The observable outcome of one doUpdate tick: the router state
afterwards, the frames passed to can_bus_ sendFrame in order, and the
frames still sitting in the hardware queue when the tick ends. -/
structure UpdateResult where
  state : BridgeState
  sentToVirtual : List CanFrame
  remainingQueue : List CanFrame
deriving DecidableEq

/-- doUpdate (CanBusBridge.cpp lines 115-129): power is computed once;
the while loop runs only while power holds and the hardware queue is
nonempty, so with power true it drains the whole queue through
drainStep, and with power false it performs no read at all. -/
def doUpdate (power : Bool) (queue : List CanFrame) (s : BridgeState) : UpdateResult :=
  if power = true then
    let p := drain s queue
    ⟨p.1, p.2, []⟩
  else
    ⟨s, [], queue⟩

/-- Log messages emitted by setFrame (CanBusBridge.cpp lines 140 and 144). -/
inductive FrameLog
  | frameSentInfo (id : ℕ)
  | undefinedFrameWarn (id : ℕ)
deriving DecidableEq

/-- The observable outcome of one setFrame call: the router state
afterwards, the hardware writeFrame call performed, if any, as the
triple of identifier, payload and is_fd flag, and the log messages. -/
structure SetFrameResult where
  state : BridgeState
  hwWrite : Option (ℕ × List ℕ × Bool)
  logs : List FrameLog
deriving DecidableEq

/-- setFrame (CanBusBridge.cpp lines 132-147), the callback registered
on the virtual bus: when powered and the identifier is not in
received_from_ecu_can_id_set_, add it to
to_be_input_to_ecu_can_id_set_ and write the frame to hardware with
the flag stored in can_id_fd_map_, or with true plus a warning when
the identifier is absent from the map; otherwise do nothing.
can_id_fd_map_ is passed as an association list whose lookup matches
the std::map find in the source. -/
def setFrame (power : Bool) (can_id_fd_map : List (ℕ × Bool)) (id : ℕ)
    (input_frame : List ℕ) (s : BridgeState) : SetFrameResult :=
  if power = true ∧ id ∉ s.received_from_ecu_can_id_set then
    let s1 : BridgeState :=
      { s with to_be_input_to_ecu_can_id_set :=
          insert id s.to_be_input_to_ecu_can_id_set }
    match can_id_fd_map.lookup id with
    | some is_fd => ⟨s1, some (id, input_frame, is_fd), [FrameLog.frameSentInfo id]⟩
    | none => ⟨s1, some (id, input_frame, true), [FrameLog.undefinedFrameWarn id]⟩
  else
    ⟨s, none, []⟩

/-- A virtual CAN bus candidate as seen from doInit: its numeric index
(getIndex) and its configured name (getName). -/
structure VirtCanBus where
  index : ℕ
  name : String
deriving DecidableEq

/-- One InputCanFrame descriptor from the configuration tree: its
identifier (getIdentifier) and its declared CAN-FD flag (isCanFd). -/
structure InputCanFrameDesc where
  identifier : ℕ
  isCanFd : Bool
deriving DecidableEq

/-- The fatal errors doInit can throw (CanBusBridge.cpp lines 54, 61,
67, 84 and 91). canBusNotFoundForIndex carries the index the format
string of line 84 interpolates; canBusConfigMissing is the generic
message of line 91 that names no index. -/
inductive InitError
  | noHardwareCanBus
  | nullHardwareCanBus
  | noCanBusesFound
  | canBusNotFoundForIndex (index : ℕ)
  | canBusConfigMissing
deriving DecidableEq

/-- Log messages doInit emits (CanBusBridge.cpp lines 57, 80 and 104). -/
inductive InitLog
  | multipleHardwareWarn
  | indexFallbackInfo (index : ℕ)
  | noInputFramesWarn
deriving DecidableEq

/-- The environment doInit runs in: the bridge and app names, the
HardwareCanBus children (a none entry models a null pointer), the
virtual CAN buses found recursively, the findFullName resolution map
(an entry models a path whose lookup and CanBus downcast succeed, the
value being an opaque handle), the InputCanFrame descriptors, the
configured index, and the CAN-FD baud rate reported by each virtual
bus handle. -/
structure InitEnv where
  appName : String
  bridgeName : String
  hwChildren : List (Option ℕ)
  ioCanBuses : List VirtCanBus
  configPaths : List (String × ℕ)
  inputCanFrames : List InputCanFrameDesc
  index : ℕ
  canFdBaudRate : ℕ → ℕ

/-- The fully qualified virtual-bus name built from the bridge name
(CanBusBridge.cpp line 72). -/
def canBusFullName (env : InitEnv) : String :=
  "/" ++ env.appName ++ "/CanCommunication/" ++ env.bridgeName

/-- The fallback lookup path rebuilt per candidate bus
(CanBusBridge.cpp line 81). -/
def comSpecFullName (env : InitEnv) (busName : String) : String :=
  "/" ++ env.appName ++ "/ComSpec/" ++ busName

/-- findFullName followed by the dynamic_cast to CanBus, as a lookup in
the environment resolution map. -/
def findFullName (env : InitEnv) (nm : String) : Option ℕ :=
  env.configPaths.lookup nm

/-- The index-fallback loop of doInit (CanBusBridge.cpp lines 78-87):
for every candidate whose index equals the configured one, log the
mismatch info, rebuild the ComSpec path and look it up; a failed
lookup throws the index-naming error at once, a successful one
overwrites the accumulator and the loop continues. -/
def findByIndexLoop (env : InitEnv) :
    List VirtCanBus → Option ℕ → List InitLog → List InitLog × Except InitError (Option ℕ)
  | [], acc, logs => (logs, Except.ok acc)
  | b :: rest, acc, logs =>
    if env.index = b.index then
      let logs1 := logs ++ [InitLog.indexFallbackInfo env.index]
      match findFullName env (comSpecFullName env b.name) with
      | some cb => findByIndexLoop env rest (some cb) logs1
      | none => (logs1, Except.error (InitError.canBusNotFoundForIndex env.index))
    else
      findByIndexLoop env rest acc logs

/-- can_id_fd_map_ built by the loop of CanBusBridge.cpp lines 106-108:
later descriptors overwrite earlier ones with the same identifier, so
each entry is pushed in front of the association list. -/
def buildTable (frames : List InputCanFrameDesc) : List (ℕ × Bool) :=
  frames.foldl (fun m f => (f.identifier, f.isCanFd) :: m) []

/-- What a successful doInit leaves behind: the selected hardware bus
handle, the resolved virtual bus handle, whether the index fallback
resolved it, the registerAllFrames and disableOutputScheduling side
effects on the virtual bus, the is_can_fd_ flag written to the
hardware bus (line 99), and can_id_fd_map_. -/
structure InitResult where
  hwBus : ℕ
  canBus : ℕ
  fallbackUsed : Bool
  callbackRegistered : Bool
  outputSchedulingDisabled : Bool
  hwIsCanFd : Bool
  table : List (ℕ × Bool)
deriving DecidableEq

/-- The tail of doInit after the virtual bus is resolved
(CanBusBridge.cpp lines 95-109): register the setFrame callback,
disable output scheduling, set is_can_fd_ from the baud rate, warn
when no InputCanFrames exist, and build can_id_fd_map_. -/
def finishInit (env : InitEnv) (logs : List InitLog) (hw cb : ℕ) (fallback : Bool) :
    List InitLog × Except InitError InitResult :=
  let logs2 := if env.inputCanFrames.isEmpty then logs ++ [InitLog.noInputFramesWarn] else logs
  (logs2, Except.ok
    { hwBus := hw
      canBus := cb
      fallbackUsed := fallback
      callbackRegistered := true
      outputSchedulingDisabled := true
      hwIsCanFd := decide (0 < env.canFdBaudRate cb)
      table := buildTable env.inputCanFrames })

/-- The virtual-bus binding stage of doInit (CanBusBridge.cpp lines
64-112), run once a hardware bus handle hw is selected: require some
virtual bus to exist, resolve the virtual bus by full name first and
only on a miss run the index-fallback loop, failing with the generic
missing-config error of line 91 when the loop resolves nothing; then
apply the binding side effects and build the classification table. -/
def bindVirtualStage (env : InitEnv) (logs0 : List InitLog) (hw : ℕ) :
    List InitLog × Except InitError InitResult :=
  if env.ioCanBuses.isEmpty then
    (logs0, Except.error InitError.noCanBusesFound)
  else
    match findFullName env (canBusFullName env) with
    | some cb => finishInit env logs0 hw cb false
    | none =>
      match findByIndexLoop env env.ioCanBuses none logs0 with
      | (logs1, Except.error e) => (logs1, Except.error e)
      | (logs1, Except.ok none) => (logs1, Except.error InitError.canBusConfigMissing)
      | (logs1, Except.ok (some cb)) => finishInit env logs1 hw cb true

/-- doInit (CanBusBridge.cpp lines 48-112): bind the hardware bus
(empty children fatal, several children a warning with the first one
selected, a null first child fatal), then run the virtual binding
stage. Returns the logs emitted together with the thrown error or the
result. -/
def doInit (env : InitEnv) : List InitLog × Except InitError InitResult :=
  match env.hwChildren with
  | [] => ([], Except.error InitError.noHardwareCanBus)
  | first :: rest =>
    let logs0 := if rest.isEmpty then [] else [InitLog.multipleHardwareWarn]
    match first with
    | none => (logs0, Except.error InitError.nullHardwareCanBus)
    | some hw => bindVirtualStage env logs0 hw

/-- A concrete doInit environment whose virtual bus resolves by full
name: two hardware children, so the ambiguity warning fires, and the
name lookup hits handle 42 directly. -/
def envNameHit : InitEnv :=
  { appName := "App"
    bridgeName := "Can0"
    hwChildren := [some 1, some 2]
    ioCanBuses := [⟨0, "BusA"⟩]
    configPaths := [("/App/CanCommunication/Can0", 42)]
    inputCanFrames := [⟨0x100, false⟩]
    index := 0
    canFdBaudRate := fun _ => 500 }

/-- The doInit result on envNameHit. -/
def envNameHitResult : InitResult :=
  { hwBus := 1
    canBus := 42
    fallbackUsed := false
    callbackRegistered := true
    outputSchedulingDisabled := true
    hwIsCanFd := true
    table := [(0x100, false)] }

/-- A concrete doInit environment where the name lookup misses and no
virtual bus carries the configured index, so neither resolution method
finds a match. -/
def envNameMiss : InitEnv :=
  { appName := "App"
    bridgeName := "Can0"
    hwChildren := [some 1]
    ioCanBuses := [⟨5, "BusA"⟩]
    configPaths := []
    inputCanFrames := []
    index := 0
    canFdBaudRate := fun _ => 0 }

/-- States reachable from the post-doInit state by any interleaving of
doUpdate ticks and virtual-side setFrame callbacks. -/
inductive Reachable : BridgeState → Prop
  | init : Reachable initState
  | update (power : Bool) (queue : List CanFrame) (s : BridgeState) :
      Reachable s → Reachable (doUpdate power queue s).state
  | vframe (power : Bool) (m : List (ℕ × Bool)) (id : ℕ) (fr : List ℕ)
      (s : BridgeState) :
      Reachable s → Reachable (setFrame power m id fr s).state

theorem drainStep_mono (s : BridgeState) (f : CanFrame) :
    s.to_be_input_to_ecu_can_id_set ⊆ (drainStep s f).1.to_be_input_to_ecu_can_id_set ∧
    s.received_from_ecu_can_id_set ⊆ (drainStep s f).1.received_from_ecu_can_id_set := by
  unfold drainStep
  split <;> simp [Finset.subset_insert]

theorem drain_mono (l : List CanFrame) (s : BridgeState) :
    s.to_be_input_to_ecu_can_id_set ⊆ (drain s l).1.to_be_input_to_ecu_can_id_set ∧
    s.received_from_ecu_can_id_set ⊆ (drain s l).1.received_from_ecu_can_id_set := by
  induction l generalizing s with
  | nil => simp [drain]
  | cons f rest ih =>
    have h1 := drainStep_mono s f
    have h2 := ih (drainStep s f).1
    exact ⟨h1.1.trans h2.1, h1.2.trans h2.2⟩

theorem drainStep_disjoint (s : BridgeState) (f : CanFrame)
    (h : Disjoint s.to_be_input_to_ecu_can_id_set s.received_from_ecu_can_id_set) :
    Disjoint (drainStep s f).1.to_be_input_to_ecu_can_id_set
      (drainStep s f).1.received_from_ecu_can_id_set := by
  unfold drainStep
  split
  · exact h
  · rename_i hmem
    exact Finset.disjoint_insert_right.mpr ⟨hmem, h⟩

theorem drain_disjoint (l : List CanFrame) (s : BridgeState)
    (h : Disjoint s.to_be_input_to_ecu_can_id_set s.received_from_ecu_can_id_set) :
    Disjoint (drain s l).1.to_be_input_to_ecu_can_id_set
      (drain s l).1.received_from_ecu_can_id_set := by
  induction l generalizing s with
  | nil => exact h
  | cons f rest ih => exact ih (drainStep s f).1 (drainStep_disjoint s f h)

theorem setFrame_disjoint (power : Bool) (m : List (ℕ × Bool)) (id : ℕ) (fr : List ℕ)
    (s : BridgeState)
    (h : Disjoint s.to_be_input_to_ecu_can_id_set s.received_from_ecu_can_id_set) :
    Disjoint (setFrame power m id fr s).state.to_be_input_to_ecu_can_id_set
      (setFrame power m id fr s).state.received_from_ecu_can_id_set := by
  unfold setFrame
  split
  · rename_i hc
    cases hl : m.lookup id <;>
      simp only [hl] <;>
      exact Finset.disjoint_insert_left.mpr ⟨hc.2, h⟩
  · exact h

theorem finishInit_snd (env : InitEnv) (logs : List InitLog) (hw cb : ℕ) (fb : Bool) :
    (finishInit env logs hw cb fb).2 = Except.ok
      { hwBus := hw
        canBus := cb
        fallbackUsed := fb
        callbackRegistered := true
        outputSchedulingDisabled := true
        hwIsCanFd := decide (0 < env.canFdBaudRate cb)
        table := buildTable env.inputCanFrames } := rfl

theorem finishInit_fst_cases (env : InitEnv) (logs : List InitLog) (hw cb : ℕ) (fb : Bool) :
    (finishInit env logs hw cb fb).1 = logs ∨
    (finishInit env logs hw cb fb).1 = logs ++ [InitLog.noInputFramesWarn] := by
  by_cases he : env.inputCanFrames.isEmpty <;> simp [finishInit, he]

theorem finishInit_fst (env : InitEnv) (logs : List InitLog) (hw cb : ℕ) (fb : Bool) :
    ∃ t, (finishInit env logs hw cb fb).1 = logs ++ t := by
  rcases finishInit_fst_cases env logs hw cb fb with h | h
  · exact ⟨[], by simp [h]⟩
  · exact ⟨[InitLog.noInputFramesWarn], h⟩

theorem findByIndexLoop_fst (env : InitEnv) (l : List VirtCanBus) (acc : Option ℕ)
    (logs : List InitLog) :
    ∃ t, (findByIndexLoop env l acc logs).1 = logs ++ t := by
  induction l generalizing acc logs with
  | nil => exact ⟨[], by simp [findByIndexLoop]⟩
  | cons b rest ih =>
    by_cases hb : env.index = b.index
    · cases hl : findFullName env (comSpecFullName env b.name) with
      | some cb =>
        obtain ⟨t, ht⟩ := ih (some cb) (logs ++ [InitLog.indexFallbackInfo env.index])
        rw [hb] at ht
        exact ⟨[InitLog.indexFallbackInfo b.index] ++ t, by
          simp [findByIndexLoop, hb, hl, ht]⟩
      | none =>
        exact ⟨[InitLog.indexFallbackInfo env.index], by simp [findByIndexLoop, hb, hl]⟩
    · obtain ⟨t, ht⟩ := ih acc logs
      exact ⟨t, by simp [findByIndexLoop, hb, ht]⟩

theorem findByIndexLoop_no_match (env : InitEnv) (l : List VirtCanBus) (acc : Option ℕ)
    (logs : List InitLog) (h : ∀ b ∈ l, b.index ≠ env.index) :
    findByIndexLoop env l acc logs = (logs, Except.ok acc) := by
  induction l generalizing acc logs with
  | nil => rfl
  | cons b rest ih =>
    have hb : ¬ env.index = b.index := fun he => h b (by simp) he.symm
    simp only [findByIndexLoop, if_neg hb]
    exact ih acc logs (fun x hx => h x (List.mem_cons_of_mem b hx))

theorem findByIndexLoop_err (env : InitEnv) (l : List VirtCanBus) (acc : Option ℕ)
    (logs : List InitLog)
    (h : ∃ b ∈ l, b.index = env.index ∧
      findFullName env (comSpecFullName env b.name) = none) :
    (findByIndexLoop env l acc logs).2
      = Except.error (InitError.canBusNotFoundForIndex env.index) := by
  induction l generalizing acc logs with
  | nil => simp at h
  | cons b rest ih =>
    obtain ⟨x, hx, hxi, hxn⟩ := h
    by_cases hb : env.index = b.index
    · cases hl : findFullName env (comSpecFullName env b.name) with
      | some cb =>
        rcases List.mem_cons.mp hx with rfl | hxr
        · rw [hxn] at hl; simp at hl
        · simp only [findByIndexLoop, if_pos hb, hl]
          exact ih (some cb) _ ⟨x, hxr, hxi, hxn⟩
      | none => simp [findByIndexLoop, hb, hl]
    · rcases List.mem_cons.mp hx with rfl | hxr
      · exact absurd hxi.symm hb
      · simp only [findByIndexLoop, if_neg hb]
        exact ih acc logs ⟨x, hxr, hxi, hxn⟩

theorem findByIndexLoop_error_shape (env : InitEnv) (l : List VirtCanBus) (acc : Option ℕ)
    (logs : List InitLog) (e : InitError)
    (h : (findByIndexLoop env l acc logs).2 = Except.error e) :
    e = InitError.canBusNotFoundForIndex env.index := by
  induction l generalizing acc logs with
  | nil => simp [findByIndexLoop] at h
  | cons b rest ih =>
    by_cases hb : env.index = b.index
    · cases hl : findFullName env (comSpecFullName env b.name) with
      | some cb =>
        simp only [findByIndexLoop, if_pos hb, hl] at h
        exact ih _ _ h
      | none =>
        simp only [findByIndexLoop, if_pos hb, hl] at h
        exact (Except.error.injEq _ _).mp h.symm
    · simp only [findByIndexLoop, if_neg hb] at h
      exact ih _ _ h

theorem doInit_of_hw (env : InitEnv) (hw : ℕ) (rest : List (Option ℕ))
    (hc : env.hwChildren = some hw :: rest) :
    doInit env = bindVirtualStage env
      (if rest.isEmpty then [] else [InitLog.multipleHardwareWarn]) hw := by
  unfold doInit
  rw [hc]

theorem bindVirtualStage_fst (env : InitEnv) (logs0 : List InitLog) (hw : ℕ) :
    ∃ t, (bindVirtualStage env logs0 hw).1 = logs0 ++ t := by
  unfold bindVirtualStage
  split
  · exact ⟨[], by simp⟩
  · cases hn : findFullName env (canBusFullName env) with
    | some cb =>
      obtain ⟨t, ht⟩ := finishInit_fst env logs0 hw cb false
      exact ⟨t, by simp [ht]⟩
    | none =>
      rcases hres : findByIndexLoop env env.ioCanBuses none logs0 with ⟨logs1, res⟩
      obtain ⟨t1, ht1⟩ := findByIndexLoop_fst env env.ioCanBuses none logs0
      rw [hres] at ht1
      cases res with
      | error e => exact ⟨t1, by simp [hres, ht1.symm]⟩
      | ok o =>
        cases o with
        | none => exact ⟨t1, by simp [hres, ht1.symm]⟩
        | some cb =>
          obtain ⟨t2, ht2⟩ := finishInit_fst env logs1 hw cb true
          refine ⟨t1 ++ t2, ?_⟩
          simp only [hres]
          simp only at ht1
          rw [ht2, ht1, List.append_assoc]

theorem bindVirtualStage_ok (env : InitEnv) (logs0 : List InitLog) (hw : ℕ)
    (r : InitResult) (h : (bindVirtualStage env logs0 hw).2 = Except.ok r) :
    r.hwBus = hw ∧ r.callbackRegistered = true ∧ r.outputSchedulingDisabled = true ∧
    r.hwIsCanFd = decide (0 < env.canFdBaudRate r.canBus) ∧
    r.table = buildTable env.inputCanFrames := by
  unfold bindVirtualStage at h
  split at h
  · simp at h
  · split at h
    · rw [finishInit_snd] at h
      rw [Except.ok.injEq] at h
      subst h
      simp
    · split at h
      · simp at h
      · simp at h
      · rw [finishInit_snd] at h
        rw [Except.ok.injEq] at h
        subst h
        simp

theorem bindVirtualStage_not_hw_error (env : InitEnv) (logs0 : List InitLog) (hw : ℕ) :
    (bindVirtualStage env logs0 hw).2 ≠ Except.error InitError.noHardwareCanBus ∧
    (bindVirtualStage env logs0 hw).2 ≠ Except.error InitError.nullHardwareCanBus := by
  unfold bindVirtualStage
  split
  · simp
  · split
    · rw [finishInit_snd]
      simp
    · split
      · rename_i logs1 e heq
        have he : e = InitError.canBusNotFoundForIndex env.index :=
          findByIndexLoop_error_shape env env.ioCanBuses none logs0 e (by rw [heq])
        subst he
        simp
      · simp
      · rw [finishInit_snd]
        simp

/-- C1: for every frame read from the hardware endpoint during a tick,
if its identifier is in the Pending-From-Virtual Set the frame is
suppressed and neither set is mutated, otherwise the identifier is
added to the Pending-From-Hardware Set and the frame is forwarded
unchanged to the virtual endpoint. -/
theorem c1_hardware_to_virtual_routing (s : BridgeState) (f : CanFrame) :
    (f.ident ∈ s.to_be_input_to_ecu_can_id_set → drainStep s f = (s, none)) ∧
    (f.ident ∉ s.to_be_input_to_ecu_can_id_set →
      drainStep s f =
        ({ s with received_from_ecu_can_id_set :=
            insert f.ident s.received_from_ecu_can_id_set }, some f)) := by
  constructor <;> intro h <;> simp [drainStep, h]

theorem c1_hardware_to_virtual_routing_witness :
    drainStep ⟨{5}, ∅⟩ ⟨5, [9]⟩ = (⟨{5}, ∅⟩, none) ∧
    drainStep ⟨{5}, ∅⟩ ⟨7, [1]⟩ = (⟨{5}, {7}⟩, some ⟨7, [1]⟩) :=
  ⟨(c1_hardware_to_virtual_routing ⟨{5}, ∅⟩ ⟨5, [9]⟩).1 (by decide),
   (c1_hardware_to_virtual_routing ⟨{5}, ∅⟩ ⟨7, [1]⟩).2 (by decide)⟩

/-- C2: an identifier in the Pending-From-Hardware Set is suppressed by
every subsequent virtual-side transmission attempt, with no hardware
write and no state change; in particular, after hardware delivers
identifier 0x400 into the empty initial state the frame is forwarded
to the virtual endpoint, 0x400 is recorded, and an immediately
following virtual transmission of 0x400 produces no hardware write. -/
theorem c2_no_echo :
    (∀ (power : Bool) (m : List (ℕ × Bool)) (id : ℕ) (fr : List ℕ) (s : BridgeState),
      id ∈ s.received_from_ecu_can_id_set → setFrame power m id fr s = ⟨s, none, []⟩) ∧
    (∀ (m : List (ℕ × Bool)) (fr : List ℕ),
      (doUpdate true [⟨0x400, fr⟩] initState).sentToVirtual = [⟨0x400, fr⟩] ∧
      (doUpdate true [⟨0x400, fr⟩] initState).state.received_from_ecu_can_id_set = {0x400} ∧
      (setFrame true m 0x400 fr (doUpdate true [⟨0x400, fr⟩] initState).state).hwWrite = none ∧
      (setFrame true m 0x400 fr (doUpdate true [⟨0x400, fr⟩] initState).state).state
        = (doUpdate true [⟨0x400, fr⟩] initState).state) := by
  constructor
  · intro power m id fr s h
    simp [setFrame, h]
  · intro m fr
    simp [doUpdate, drain, drainStep, initState, setFrame]

theorem c2_no_echo_witness :
    setFrame true [] 3 [2] ⟨∅, {3}⟩ = ⟨⟨∅, {3}⟩, none, []⟩ :=
  c2_no_echo.1 true [] 3 [2] ⟨∅, {3}⟩ (by decide)

/-- C3: a powered, non-suppressed virtual-side transmission writes to
hardware with exactly the flag stored in the classification table when
the identifier is present, and with the CAN-FD flag true plus an
undefined-frame warning when it is absent; in both cases a hardware
write happens, so the frame is never dropped for being unclassified. -/
theorem c3_format_classification (m : List (ℕ × Bool)) (id : ℕ) (fr : List ℕ)
    (s : BridgeState) (h : id ∉ s.received_from_ecu_can_id_set) :
    (∀ b, m.lookup id = some b →
      setFrame true m id fr s =
        ⟨{ s with to_be_input_to_ecu_can_id_set := insert id s.to_be_input_to_ecu_can_id_set },
          some (id, fr, b), [FrameLog.frameSentInfo id]⟩) ∧
    (m.lookup id = none →
      setFrame true m id fr s =
        ⟨{ s with to_be_input_to_ecu_can_id_set := insert id s.to_be_input_to_ecu_can_id_set },
          some (id, fr, true), [FrameLog.undefinedFrameWarn id]⟩) ∧
    (setFrame true m id fr s).hwWrite ≠ none := by
  refine ⟨?_, ?_, ?_⟩
  · intro b hb
    simp [setFrame, h, hb]
  · intro hb
    simp [setFrame, h, hb]
  · cases hb : m.lookup id <;> simp [setFrame, h, hb]

theorem c3_format_classification_witness :
    setFrame true [(0x100, false), (0x200, true)] 0x100 [4] initState =
      ⟨⟨{0x100}, ∅⟩, some (0x100, [4], false), [FrameLog.frameSentInfo 0x100]⟩ ∧
    setFrame true [(0x100, false), (0x200, true)] 0x300 [4] initState =
      ⟨⟨{0x300}, ∅⟩, some (0x300, [4], true), [FrameLog.undefinedFrameWarn 0x300]⟩ :=
  ⟨(c3_format_classification [(0x100, false), (0x200, true)] 0x100 [4] initState
      (by decide)).1 false (by decide),
   (c3_format_classification [(0x100, false), (0x200, true)] 0x300 [4] initState
      (by decide)).2.1 (by decide)⟩

/-- C4: when the power flag is false, a tick sends nothing to the
virtual endpoint and leaves the state untouched, and a virtual-side
transmission attempt performs no hardware write and mutates neither
suppression set. -/
theorem c4_availability_gating :
    (∀ (queue : List CanFrame) (s : BridgeState),
      doUpdate false queue s = ⟨s, [], queue⟩) ∧
    (∀ (m : List (ℕ × Bool)) (id : ℕ) (fr : List ℕ) (s : BridgeState),
      setFrame false m id fr s = ⟨s, none, []⟩) := by
  constructor
  · intro queue s
    simp [doUpdate]
  · intro m id fr s
    simp [setFrame]

theorem c5_counterexample :
    (doUpdate false [⟨0x100, [1]⟩, ⟨0x200, [2]⟩] initState).remainingQueue
      = [⟨0x100, [1]⟩, ⟨0x200, [2]⟩] ∧
    ([⟨0x100, [1]⟩, ⟨0x200, [2]⟩] : List CanFrame) ≠ [] := by decide

/-- C5 (amended): when the availability flag is false throughout a
tick, the tick does not drain the hardware queue: no frame is read,
the queue is left exactly as it was, no frame is forwarded to the
virtual endpoint and neither suppression set is mutated. -/
theorem c5_unpowered_tick (queue : List CanFrame) (s : BridgeState) :
    (doUpdate false queue s).remainingQueue = queue ∧
    (doUpdate false queue s).sentToVirtual = [] ∧
    (doUpdate false queue s).state = s := by
  simp [doUpdate]

/-- C9: both suppression sets grow monotonically: every doUpdate tick
and every setFrame callback leaves each set a superset of its previous
value, since neither path ever removes an identifier. -/
theorem c9_monotonic_growth :
    (∀ (power : Bool) (queue : List CanFrame) (s : BridgeState),
      s.to_be_input_to_ecu_can_id_set
        ⊆ (doUpdate power queue s).state.to_be_input_to_ecu_can_id_set ∧
      s.received_from_ecu_can_id_set
        ⊆ (doUpdate power queue s).state.received_from_ecu_can_id_set) ∧
    (∀ (power : Bool) (m : List (ℕ × Bool)) (id : ℕ) (fr : List ℕ) (s : BridgeState),
      s.to_be_input_to_ecu_can_id_set
        ⊆ (setFrame power m id fr s).state.to_be_input_to_ecu_can_id_set ∧
      s.received_from_ecu_can_id_set
        ⊆ (setFrame power m id fr s).state.received_from_ecu_can_id_set) := by
  constructor
  · intro power queue s
    unfold doUpdate
    split
    · exact drain_mono queue s
    · exact ⟨Finset.Subset.refl _, Finset.Subset.refl _⟩
  · intro power m id fr s
    unfold setFrame
    split
    · cases hl : m.lookup id <;> simp [hl, Finset.subset_insert]
    · exact ⟨Finset.Subset.refl _, Finset.Subset.refl _⟩

/-- C10: in every reachable router state the Pending-From-Virtual Set
and the Pending-From-Hardware Set are disjoint: each direction adds an
identifier to its own set only after checking the opposite set, and no
identifier is ever removed. -/
theorem c10_disjoint_invariant (s : BridgeState) (h : Reachable s) :
    Disjoint s.to_be_input_to_ecu_can_id_set s.received_from_ecu_can_id_set := by
  induction h with
  | init => simp [initState]
  | update power queue s hr ih =>
    unfold doUpdate
    split
    · exact drain_disjoint queue s ih
    · exact ih
  | vframe power m id fr s hr ih =>
    exact setFrame_disjoint power m id fr s ih

theorem c10_disjoint_invariant_witness :
    Disjoint
      (setFrame true [] 0x200 [7]
        (doUpdate true [⟨0x400, []⟩] initState).state).state.to_be_input_to_ecu_can_id_set
      (setFrame true [] 0x200 [7]
        (doUpdate true [⟨0x400, []⟩] initState).state).state.received_from_ecu_can_id_set :=
  c10_disjoint_invariant _
    (Reachable.vframe true [] 0x200 [7] _
      (Reachable.update true [⟨0x400, []⟩] initState Reachable.init))

/-- C6 (amended): the binder first attempts virtual-endpoint
resolution by the fully qualified name built from the bridge name;
when that succeeds the index fallback is never attempted (no fallback
log is emitted and the result records no fallback); when name
resolution fails, the index scan runs: if a candidate with the
configured index exists whose rebuilt lookup path fails to resolve,
initialization fails with the error naming that index, but if no
candidate carries the configured index, initialization fails with the
generic configuration-missing error, which does not name the index. -/
theorem c6_virtual_binding (env : InitEnv) (hw : ℕ) (rest : List (Option ℕ))
    (hhw : env.hwChildren = some hw :: rest) (hio : env.ioCanBuses ≠ []) :
    (∀ cb, findFullName env (canBusFullName env) = some cb →
      (∃ r, (doInit env).2 = Except.ok r ∧ r.canBus = cb ∧ r.fallbackUsed = false) ∧
      ∀ i, InitLog.indexFallbackInfo i ∉ (doInit env).1) ∧
    (findFullName env (canBusFullName env) = none →
      ((∀ b ∈ env.ioCanBuses, b.index ≠ env.index) →
        (doInit env).2 = Except.error InitError.canBusConfigMissing) ∧
      ((∃ b ∈ env.ioCanBuses, b.index = env.index ∧
          findFullName env (comSpecFullName env b.name) = none) →
        (doInit env).2 = Except.error (InitError.canBusNotFoundForIndex env.index))) := by
  have hioe : env.ioCanBuses.isEmpty = false := by
    cases hioc : env.ioCanBuses with
    | nil => exact absurd hioc hio
    | cons a l => rfl
  rw [doInit_of_hw env hw rest hhw]
  constructor
  · intro cb hcb
    constructor
    · refine ⟨{ hwBus := hw
                canBus := cb
                fallbackUsed := false
                callbackRegistered := true
                outputSchedulingDisabled := true
                hwIsCanFd := decide (0 < env.canFdBaudRate cb)
                table := buildTable env.inputCanFrames }, ?_, rfl, rfl⟩
      unfold bindVirtualStage
      rw [if_neg (by simp [hioe]), hcb, finishInit_snd]
    · intro i
      have hlogs0 : InitLog.indexFallbackInfo i
          ∉ (if rest.isEmpty then ([] : List InitLog) else [InitLog.multipleHardwareWarn]) := by
        by_cases hre : rest.isEmpty <;> simp [hre]
      unfold bindVirtualStage
      rw [if_neg (by simp [hioe]), hcb]
      rcases finishInit_fst_cases env _ hw cb false with h | h <;> rw [h] <;>
        simp [hlogs0]
  · intro hn
    constructor
    · intro hno
      unfold bindVirtualStage
      rw [if_neg (by simp [hioe]), hn,
        findByIndexLoop_no_match env env.ioCanBuses none _ hno]
    · intro hex
      have hshape := findByIndexLoop_err env env.ioCanBuses none
        (if rest.isEmpty then ([] : List InitLog) else [InitLog.multipleHardwareWarn]) hex
      unfold bindVirtualStage
      rw [if_neg (by simp [hioe]), hn]
      rcases hres : findByIndexLoop env env.ioCanBuses none
          (if rest.isEmpty then ([] : List InitLog) else [InitLog.multipleHardwareWarn])
        with ⟨logs1, res⟩
      rw [hres] at hshape
      simp only at hshape
      subst hshape
      rfl

theorem c6_virtual_binding_witness :
    ∃ r, (doInit envNameHit).2 = Except.ok r ∧ r.canBus = 42 ∧ r.fallbackUsed = false :=
  ((c6_virtual_binding envNameHit 1 [some 2] rfl (by decide)).1 42 (by decide)).1

theorem c6_counterexample :
    findFullName envNameMiss (canBusFullName envNameMiss) = none ∧
    envNameMiss.ioCanBuses = [⟨5, "BusA"⟩] ∧
    envNameMiss.index = 0 ∧
    (doInit envNameMiss).2 = Except.error InitError.canBusConfigMissing ∧
    InitError.canBusConfigMissing ≠ InitError.canBusNotFoundForIndex 0 := by
  decide

/-- C7: if no hardware endpoint candidate exists, doInit fails with the
no-hardware error; if more than one exists and the first is a valid
handle, the first is selected, the ambiguity warning is emitted, and
initialization proceeds past hardware binding (neither hardware error
is raised, and a successful result uses the first handle). -/
theorem c7_hardware_binding (env : InitEnv) :
    (env.hwChildren = [] → doInit env = ([], Except.error InitError.noHardwareCanBus)) ∧
    (∀ hw rest, env.hwChildren = some hw :: rest → rest ≠ [] →
      InitLog.multipleHardwareWarn ∈ (doInit env).1 ∧
      (doInit env).2 ≠ Except.error InitError.noHardwareCanBus ∧
      (doInit env).2 ≠ Except.error InitError.nullHardwareCanBus ∧
      ∀ r, (doInit env).2 = Except.ok r → r.hwBus = hw) := by
  constructor
  · intro hc
    unfold doInit
    rw [hc]
  · intro hw rest hc hrest
    have hre : rest.isEmpty = false := by
      cases rest with
      | nil => exact absurd rfl hrest
      | cons a l => rfl
    rw [doInit_of_hw env hw rest hc]
    have hif : (if rest.isEmpty then ([] : List InitLog)
        else [InitLog.multipleHardwareWarn]) = [InitLog.multipleHardwareWarn] := by
      simp [hre]
    rw [hif]
    refine ⟨?_, (bindVirtualStage_not_hw_error env _ hw).1,
      (bindVirtualStage_not_hw_error env _ hw).2, ?_⟩
    · obtain ⟨t, ht⟩ := bindVirtualStage_fst env [InitLog.multipleHardwareWarn] hw
      rw [ht]
      simp
    · intro r hr
      exact (bindVirtualStage_ok env _ hw r hr).1

theorem c7_hardware_binding_witness :
    InitLog.multipleHardwareWarn ∈ (doInit envNameHit).1 :=
  ((c7_hardware_binding envNameHit).2 1 [some 2] rfl (by decide)).1

/-- C8: on every successful doInit, the setFrame callback is registered
on the virtual endpoint, the virtual endpoint independent output
scheduling is disabled, and the hardware CAN-FD mode flag is true
exactly when the virtual endpoint CAN-FD baud rate is non-zero. -/
theorem c8_binding_side_effects (env : InitEnv) (r : InitResult)
    (h : (doInit env).2 = Except.ok r) :
    r.callbackRegistered = true ∧ r.outputSchedulingDisabled = true ∧
    (r.hwIsCanFd = true ↔ env.canFdBaudRate r.canBus ≠ 0) := by
  rcases hc : env.hwChildren with _ | ⟨first, rest⟩
  · unfold doInit at h
    rw [hc] at h
    simp at h
  · cases first with
    | none =>
      unfold doInit at h
      rw [hc] at h
      simp at h
    | some hw =>
      rw [doInit_of_hw env hw rest hc] at h
      have hb := bindVirtualStage_ok env _ hw r h
      refine ⟨hb.2.1, hb.2.2.1, ?_⟩
      rw [hb.2.2.2.1]
      simp [Nat.pos_iff_ne_zero]

theorem c8_binding_side_effects_witness :
    envNameHitResult.callbackRegistered = true ∧
    envNameHitResult.outputSchedulingDisabled = true ∧
    (envNameHitResult.hwIsCanFd = true ↔
      envNameHit.canFdBaudRate envNameHitResult.canBus ≠ 0) :=
  c8_binding_side_effects envNameHit envNameHitResult (by decide)

end CanBusBridge
